import Mathlib

set_option maxHeartbeats 1000000

/-!
Verification development for the whitepaper-categorizer repository (`app.py`).

Strings of the Python program are modelled as lists of characters (`PyStr`);
byte buffers as lists of naturals (`Bytes`).  Library calls of the Python
standard library that the program relies on (`str.strip`, `str.find`,
`str.rfind`, slicing, `json.loads`) are given executable models below; the
JSON model covers the RFC 8259 grammar accepted by `json.loads` (with the
CPython extras `NaN`/`Infinity`/`-Infinity`), numbers being kept as their
lexeme since the program never computes with them, and unicode escapes being
mapped through `Char.ofNat`.
-/

abbrev PyStr := List Char

abbrev Bytes := List Nat

/-- Model of Python `str.strip()` restricted to the ASCII whitespace
characters (space, tab, newline, carriage return, vertical tab, form feed). -/
def isPySpace (c : Char) : Bool :=
  c = ' ' || c = '\t' || c = '\n' || c = '\r' || c = '\x0b' || c = '\x0c'

/-- Model of Python `str.strip()`: drop leading and trailing whitespace. -/
def pyStrip (s : PyStr) : PyStr :=
  ((s.dropWhile isPySpace).reverse.dropWhile isPySpace).reverse

/-- Index of the first occurrence of a character, or `none`. -/
def findFirstAux (c : Char) : PyStr → Option Nat
  | [] => none
  | x :: xs => if x = c then some 0 else (findFirstAux c xs).map (· + 1)

/-- Model of Python `content.find(c)` for a single character: the least index
of an occurrence, or `-1`. -/
def pyFind (s : PyStr) (c : Char) : Int :=
  match findFirstAux c s with
  | some i => Int.ofNat i
  | none => -1

/-- Model of Python `content.rfind(c)` for a single character: the greatest
index of an occurrence, or `-1`. -/
def pyRfind (s : PyStr) (c : Char) : Int :=
  match findFirstAux c s.reverse with
  | some i => Int.ofNat (s.length - 1 - i)
  | none => -1

/-- Model of the Python slice `s[a:b]` for `0 ≤ a ≤ b` (the only case the
program exercises). -/
def pySlice (s : PyStr) (a b : Int) : PyStr :=
  (s.drop a.toNat).take (b.toNat - a.toNat)

/-- Lines 638-642 of `app.py` (`classify`): keep the slice from the first
`\x7b` through the last `\x7d` when both exist and the last strictly follows the
first; otherwise keep the whole (already stripped) reply. -/
def braceSlice (content : PyStr) : PyStr :=
  let first_brace := pyFind content '{'
  let last_brace := pyRfind content '}'
  if first_brace ≠ -1 ∧ last_brace ≠ -1 ∧ last_brace > first_brace then
    pySlice content first_brace (last_brace + 1)
  else content

/-- JSON values as produced by the model of `json.loads`.  Numbers keep their
source lexeme (the program never computes with them); objects keep all members
in textual order (lookups take the last binding, as a Python dict built by the
parser does). -/
inductive Json where
  | null : Json
  | bool (b : Bool) : Json
  | num (lex : PyStr) : Json
  | str (s : PyStr) : Json
  | arr (elems : List Json) : Json
  | obj (members : List (PyStr × Json)) : Json

/-- JSON insignificant whitespace (RFC 8259: space, tab, newline, return). -/
def jsonWs (c : Char) : Bool :=
  c = ' ' || c = '\t' || c = '\n' || c = '\r'

def skipWs (s : PyStr) : PyStr := s.dropWhile jsonWs

def hexDigitVal (c : Char) : Option Nat :=
  if '0' ≤ c ∧ c ≤ '9' then some (c.toNat - '0'.toNat)
  else if 'a' ≤ c ∧ c ≤ 'f' then some (c.toNat - 'a'.toNat + 10)
  else if 'A' ≤ c ∧ c ≤ 'F' then some (c.toNat - 'A'.toNat + 10)
  else none

def parseHex4 : PyStr → Option (Nat × PyStr)
  | a :: b :: c :: d :: rest =>
    match hexDigitVal a, hexDigitVal b, hexDigitVal c, hexDigitVal d with
    | some x, some y, some z, some w => some (((x * 16 + y) * 16 + z) * 16 + w, rest)
    | _, _, _, _ => none
  | _ => none

def escChar (c : Char) : Option Char :=
  if c = '"' then some '"'
  else if c = '\\' then some '\\'
  else if c = '/' then some '/'
  else if c = 'b' then some '\x08'
  else if c = 'f' then some '\x0c'
  else if c = 'n' then some '\n'
  else if c = 'r' then some '\r'
  else if c = 't' then some '\t'
  else none

/-- Body of a JSON string literal, after the opening quote. -/
def parseStringBody (fuel : Nat) (s : PyStr) : Except PyStr (PyStr × PyStr) :=
  match fuel, s with
  | 0, _ => .error "Unterminated string".data
  | _ + 1, [] => .error "Unterminated string".data
  | fuel + 1, c :: rest =>
    if c = '"' then .ok ([], rest)
    else if c = '\\' then
      match rest with
      | [] => .error "Unterminated string".data
      | e :: rest2 =>
        if e = 'u' then
          match parseHex4 rest2 with
          | some (n, rest3) =>
            match parseStringBody fuel rest3 with
            | .ok (cs, r) => .ok (Char.ofNat n :: cs, r)
            | .error err => .error err
          | none => .error "Invalid hex escape".data
        else
          match escChar e with
          | some ec =>
            match parseStringBody fuel rest2 with
            | .ok (cs, r) => .ok (ec :: cs, r)
            | .error err => .error err
          | none => .error "Invalid escape".data
    else if c.toNat < 32 then .error "Invalid control character".data
    else
      match parseStringBody fuel rest with
      | .ok (cs, r) => .ok (c :: cs, r)
      | .error err => .error err

def takeDigits (s : PyStr) : PyStr × PyStr :=
  (s.takeWhile Char.isDigit, s.dropWhile Char.isDigit)

/-- Integer part of a JSON number: `0` or a nonzero digit followed by digits. -/
def parseIntDigits : PyStr → Option (PyStr × PyStr)
  | [] => none
  | c :: rest =>
    if c = '0' then some (['0'], rest)
    else if c.isDigit then
      some (c :: (takeDigits rest).1, (takeDigits rest).2)
    else none

/-- Optional fraction part; consumed only when `.` is followed by a digit. -/
def parseFrac (s : PyStr) : PyStr × PyStr :=
  match s with
  | '.' :: rest =>
    if (takeDigits rest).1.isEmpty then ([], s)
    else ('.' :: (takeDigits rest).1, (takeDigits rest).2)
  | _ => ([], s)

/-- Optional exponent part; consumed only when syntactically complete. -/
def parseExp (s : PyStr) : PyStr × PyStr :=
  match s with
  | e :: sign :: rest2 =>
    if e = 'e' || e = 'E' then
      if sign = '+' || sign = '-' then
        if (takeDigits rest2).1.isEmpty then ([], s)
        else (e :: sign :: (takeDigits rest2).1, (takeDigits rest2).2)
      else
        if (takeDigits (sign :: rest2)).1.isEmpty then ([], s)
        else (e :: (takeDigits (sign :: rest2)).1, (takeDigits (sign :: rest2)).2)
    else ([], s)
  | _ => ([], s)

def parseNumber (s : PyStr) : Option (PyStr × PyStr) :=
  match s with
  | '-' :: rest =>
    match parseIntDigits rest with
    | none => none
    | some (ip, s2) =>
      some ('-' :: (ip ++ (parseFrac s2).1 ++ (parseExp (parseFrac s2).2).1),
            (parseExp (parseFrac s2).2).2)
  | _ =>
    match parseIntDigits s with
    | none => none
    | some (ip, s2) =>
      some (ip ++ (parseFrac s2).1 ++ (parseExp (parseFrac s2).2).1,
            (parseExp (parseFrac s2).2).2)

mutual

/-- One JSON value, fuel-bounded recursive descent. -/
def parseValue (fuel : Nat) (s : PyStr) : Except PyStr (Json × PyStr) :=
  match fuel with
  | 0 => .error "Recursion limit".data
  | fuel + 1 =>
    match s with
    | '{' :: rest => parseObjectBody fuel (skipWs rest)
    | '[' :: rest => parseArrayBody fuel (skipWs rest)
    | '"' :: rest =>
      match parseStringBody (rest.length + 1) rest with
      | .ok (cs, r) => .ok (Json.str cs, r)
      | .error e => .error e
    | 'n' :: 'u' :: 'l' :: 'l' :: rest => .ok (Json.null, rest)
    | 't' :: 'r' :: 'u' :: 'e' :: rest => .ok (Json.bool true, rest)
    | 'f' :: 'a' :: 'l' :: 's' :: 'e' :: rest => .ok (Json.bool false, rest)
    | 'N' :: 'a' :: 'N' :: rest => .ok (Json.num "NaN".data, rest)
    | 'I' :: 'n' :: 'f' :: 'i' :: 'n' :: 'i' :: 't' :: 'y' :: rest =>
      .ok (Json.num "Infinity".data, rest)
    | '-' :: 'I' :: 'n' :: 'f' :: 'i' :: 'n' :: 'i' :: 't' :: 'y' :: rest =>
      .ok (Json.num "-Infinity".data, rest)
    | _ =>
      match parseNumber s with
      | some (lex, rest) => .ok (Json.num lex, rest)
      | none => .error "Expecting value".data

/-- Object body after the opening brace (whitespace already skipped). -/
def parseObjectBody (fuel : Nat) (s : PyStr) : Except PyStr (Json × PyStr) :=
  match fuel with
  | 0 => .error "Recursion limit".data
  | fuel + 1 =>
    match s with
    | '}' :: rest => .ok (Json.obj [], rest)
    | _ => parseMembers fuel [] s

def parseMembers (fuel : Nat) (acc : List (PyStr × Json)) (s : PyStr) :
    Except PyStr (Json × PyStr) :=
  match fuel with
  | 0 => .error "Recursion limit".data
  | fuel + 1 =>
    match s with
    | '"' :: rest =>
      match parseStringBody (rest.length + 1) rest with
      | .error e => .error e
      | .ok (key, r1) =>
        match skipWs r1 with
        | ':' :: r2 =>
          match parseValue fuel (skipWs r2) with
          | .error e => .error e
          | .ok (v, r3) =>
            match skipWs r3 with
            | ',' :: r4 => parseMembers fuel (acc ++ [(key, v)]) (skipWs r4)
            | '}' :: r4 => .ok (Json.obj (acc ++ [(key, v)]), r4)
            | _ => .error "Expecting delimiter".data
        | _ => .error "Expecting colon delimiter".data
    | _ => .error "Expecting property name enclosed in double quotes".data

/-- Array body after the opening bracket (whitespace already skipped). -/
def parseArrayBody (fuel : Nat) (s : PyStr) : Except PyStr (Json × PyStr) :=
  match fuel with
  | 0 => .error "Recursion limit".data
  | fuel + 1 =>
    match s with
    | ']' :: rest => .ok (Json.arr [], rest)
    | _ => parseElems fuel [] s

def parseElems (fuel : Nat) (acc : List Json) (s : PyStr) :
    Except PyStr (Json × PyStr) :=
  match fuel with
  | 0 => .error "Recursion limit".data
  | fuel + 1 =>
    match parseValue fuel s with
    | .error e => .error e
    | .ok (v, r1) =>
      match skipWs r1 with
      | ',' :: r2 => parseElems fuel (acc ++ [v]) (skipWs r2)
      | ']' :: r2 => .ok (Json.arr (acc ++ [v]), r2)
      | _ => .error "Expecting delimiter".data

end

/-- Model of `json.loads`: skip surrounding whitespace, parse one value,
reject trailing garbage. -/
def parseJson (s : PyStr) : Except PyStr Json :=
  match parseValue (2 * s.length + 2) (skipWs s) with
  | .error e => .error e
  | .ok (v, rest) =>
    if (skipWs rest).isEmpty then .ok v else .error "Extra data".data

/-- The closed industry list of `app.py` (`INDUSTRIES`). -/
def INDUSTRIES : List PyStr :=
  ["Banking".data, "Insurance".data, "Asset Management".data, "Hedge Funds".data,
   "Pension Funds".data, "Energy".data, "Technology".data, "Healthcare".data,
   "Industrials".data, "Consumer".data, "Real Estate".data, "Telecom".data,
   "Utilities".data, "Other".data]

/-- The closed audience list of `app.py` (`MAIN_CATEGORIES`). -/
def MAIN_CATEGORIES : List PyStr :=
  ["Retail".data, "Institutional".data, "Nondescript".data]

/-- Exceptions that the parsing half of `classify` can raise: the
`ValueError` of lines 647-652 (carrying the stripped raw reply and the JSON
parser's error detail), and the `AttributeError`/`TypeError` class of errors
raised when `.get` or `.strip` is applied to a value of the wrong type. -/
inductive PyErr where
  | formatError (raw : PyStr) (detail : PyStr) : PyErr
  | attributeError : PyErr

/-- Last binding of a key in a member list, matching lookup in a Python dict
built by `json.loads` (later duplicates overwrite earlier ones). -/
def lookupLast (kvs : List (PyStr × Json)) (k : PyStr) : Option Json :=
  match kvs with
  | [] => none
  | (k', v) :: rest =>
    match lookupLast rest k with
    | some v' => some v'
    | none => if k' = k then some v else none

/-- Model of `data.get(key, dflt)` on a parsed JSON object. -/
def dictGet (kvs : List (PyStr × Json)) (k : PyStr) (dflt : Json) : Json :=
  (lookupLast kvs k).getD dflt

/-- Model of `v.strip()` on a value taken out of the parsed JSON object:
defined on strings, an `AttributeError` on anything else (in particular on
`null`). -/
def jsonStrip : Json → Except PyErr PyStr
  | Json.str s => .ok (pyStrip s)
  | _ => .error .attributeError

/-- Field names and default values used by `classify`, named so that proofs
can refer to them stably. -/
def keyTitle : PyStr := "title".data

def keyAudience : PyStr := "audience".data

def keyIndustry : PyStr := "industry".data

def keySummary : PyStr := "short_summary".data

def keyRationale : PyStr := "audience_rationale".data

def keyConfidence : PyStr := "audience_confidence".data

def dfltTitle : Json := Json.str "Untitled".data

def dfltAudience : Json := Json.str "Nondescript".data

def dfltIndustry : Json := Json.str "Other".data

def dfltEmpty : Json := Json.str []

def dfltZero : Json := Json.num "0".data

/-- The dictionary returned by `classify` (lines 667-675 of `app.py`). -/
structure ClassificationResult where
  title : PyStr
  main_category : PyStr
  industry : PyStr
  short_summary : PyStr
  audience : PyStr
  audience_confidence : Json
  audience_rationale : PyStr

/-- Field extraction and coercion of `classify`, lines 654-675 of `app.py`,
applied to the value produced by `json.loads`.  A non-object value, or a field
present with a non-string value, raises an `AttributeError` exactly as
`data.get(...)`/`....strip()` would. -/
def extractResult : Json → Except PyErr ClassificationResult
  | Json.obj kvs =>
    match jsonStrip (dictGet kvs keyTitle dfltTitle) with
    | .error e => .error e
    | .ok title =>
      match jsonStrip (dictGet kvs keyAudience dfltAudience) with
      | .error e => .error e
      | .ok audience =>
        match jsonStrip (dictGet kvs keyIndustry dfltIndustry) with
        | .error e => .error e
        | .ok industry0 =>
          match jsonStrip (dictGet kvs keySummary dfltEmpty) with
          | .error e => .error e
          | .ok short_summary =>
            let main_category :=
              if audience ∈ MAIN_CATEGORIES then audience else "Nondescript".data
            let industry :=
              if industry0 ∈ INDUSTRIES then industry0 else "Other".data
            match jsonStrip (dictGet kvs keyRationale dfltEmpty) with
            | .error e => .error e
            | .ok audience_rationale =>
              .ok { title := title, main_category := main_category,
                    industry := industry, short_summary := short_summary,
                    audience := audience,
                    audience_confidence := dictGet kvs keyConfidence dfltZero,
                    audience_rationale := audience_rationale }
  | _ => .error .attributeError

/-- The substring of the (stripped) model reply handed to the JSON parser. -/
def jsonSliceOf (rawReply : PyStr) : PyStr :=
  braceSlice (pyStrip rawReply)

/-- Reply-processing half of `classify` (lines 635-675 of `app.py`): strip the
raw model reply, brace-slice it, parse the slice as JSON, and extract the
classification fields.  The network call itself is outside this function; its
reply is the argument. -/
def classifyReply (rawReply : PyStr) : Except PyErr ClassificationResult :=
  let content := pyStrip rawReply
  let json_str := braceSlice content
  match parseJson json_str with
  | .error e => .error (PyErr.formatError content e)
  | .ok data => extractResult data

/-- A row of the `whitepapers` table as returned by `load_whitepapers`. -/
structure Record where
  id : Int
  title : PyStr
  source : PyStr
  main_category : PyStr
  industry : PyStr
  short_summary : PyStr
  file_path : Option PyStr
  created_at : PyStr
deriving DecidableEq

/-- Model of `load_whitepapers`: every row of the table, in table order, with
no inherent ordering guarantee beyond that. -/
def load_whitepapers (db : List Record) : List Record := db

/-- Model of `delete_whitepaper`: the SQL `DELETE FROM whitepapers WHERE id = ?`
removes exactly the rows with the given id (the best-effort file removal that
precedes it does not touch the table and cannot raise, by the
`try`/`except OSError: pass`). -/
def delete_whitepaper (db : List Record) (wp_id : Int) : List Record :=
  db.filter (fun r => !(r.id == wp_id))

/-- Filtering of the listing view, lines 748-751 of `app.py`: a non-empty
filter keeps exactly the records whose field equals it, an empty filter is a
pass-through. -/
def applyFilters (filter_main_category filter_industry : PyStr)
    (whitepapers : List Record) : List Record :=
  let ws1 :=
    if filter_main_category.isEmpty then whitepapers
    else whitepapers.filter (fun w => w.main_category == filter_main_category)
  if filter_industry.isEmpty then ws1
  else ws1.filter (fun w => w.industry == filter_industry)

/-- Lexicographic comparison on character lists by code point, modelling
Python string `<=`. -/
def strLe : PyStr → PyStr → Bool
  | [], _ => true
  | _ :: _, [] => false
  | a :: as, b :: bs =>
    if a.toNat < b.toNat then true
    else if b.toNat < a.toNat then false
    else strLe as bs

/-- Stable insertion of an element into a list: placed before the first
element it compares `le` to. -/
def orderedInsert (le : Record → Record → Bool) (x : Record) :
    List Record → List Record
  | [] => [x]
  | y :: ys => if le x y then x :: y :: ys else y :: orderedInsert le x ys

/-- Stable insertion sort; the observable contract of Python `sorted` (a
stable sort by the given comparison). -/
def insSort (le : Record → Record → Bool) : List Record → List Record
  | [] => []
  | x :: xs => orderedInsert le x (insSort le xs)

/-- Comparison used by line 755 of `app.py`: ascending lexicographic order on
`created_at`, flipped when `reverse` is set.  With `reverse`, Python `sorted`
keeps equal keys in original order, which the flipped non-strict comparison
reproduces. -/
def sortCmp (reverse : Bool) (a b : Record) : Bool :=
  if reverse then strLe b.created_at a.created_at
  else strLe a.created_at b.created_at

/-- Lines 753-755 of `app.py`: sort by the `created_at` string, descending
exactly when the sort order is `newest`. -/
def listingSort (sort_order : PyStr) (whitepapers : List Record) : List Record :=
  insSort (sortCmp (sort_order == "newest".data)) whitepapers

/-- Line 684 of `app.py`: the effective sort order is the request parameter,
defaulted to `newest` when absent, stripped, and replaced by `newest` when
the stripped value is empty. -/
def effectiveSortOrder (param : Option PyStr) : PyStr :=
  let s := pyStrip (param.getD "newest".data)
  if s.isEmpty then "newest".data else s

/-- An uploaded file part of the POST form: original filename and content.
Werkzeug's `FileStorage` is truthy exactly when its filename is non-empty. -/
structure FilePart where
  filename : PyStr
  content : Bytes
deriving DecidableEq

/-- Truthiness of `pdf_file` in `if pdf_file and pdf_file.filename:` and in
the entry guard: an absent part and a part with an empty filename are falsy. -/
def fileTruthy : Option FilePart → Bool
  | none => false
  | some f => !f.filename.isEmpty

/-- The POST form of the upload action: raw `api_key` and `pdf_url` values
(the handler strips them itself) and the optional file part. -/
structure UploadForm where
  api_key : PyStr
  pdf_file : Option FilePart
  pdf_url : PyStr

/-- Environment of external collaborators of the ingestion pipeline, each
modelled as an oracle: `fetch` is `requests.get` + `raise_for_status`
(errors carry the exception text), `extract` is `extract_text` via pdfplumber
(errors are extraction failures on corrupt PDFs), `modelCall` maps the 8000
character snippet to the raw model reply (errors are API failures), and
`stagePath` is `os.path.join("uploads", f"\x7bint(time.time())\x7d_\x7bsecure_filename(...)\x7d")`. -/
structure IngestEnv where
  fetch : PyStr → Except PyStr Bytes
  extract : Bytes → Except PyStr PyStr
  modelCall : PyStr → Except PyStr PyStr
  stagePath : PyStr → PyStr

/-- Record as handed to `save_whitepaper` by the `index` handler. -/
structure SavedRecord where
  title : PyStr
  source : PyStr
  main_category : PyStr
  industry : PyStr
  short_summary : PyStr
  file_path : Option PyStr
deriving DecidableEq

/-- Externally visible side effects of one ingestion request, in order:
writing a file into the upload folder, an outbound HTTP GET, the model call,
and the insertion performed by `save_whitepaper`. -/
inductive Effect where
  | stageFile (path : PyStr) (content : Bytes) : Effect
  | httpGet (url : PyStr) : Effect
  | modelCall (snippet : PyStr) : Effect
  | insertRecord (r : SavedRecord) : Effect
deriving DecidableEq

/-- Outcome of the upload branch of `index`: a redirect to the fresh listing
on success, or re-rendering with an error banner. -/
inductive Outcome where
  | redirect : Outcome
  | failed (msg : PyStr) : Outcome
deriving DecidableEq

/-- Rendering of `f"Error: \x7be\x7d"` for the exceptions `classify` raises.  The
`ValueError` prints its constructor message; for the `AttributeError` the
precise interpreter text is irrelevant to every claim and a fixed text
stands in for it. -/
def errText : PyErr → PyStr
  | .formatError raw detail =>
    "Model did not return valid JSON.\n\nRaw reply was:\n".data ++ raw ++
      "\n\nJSON error: ".data ++ detail
  | .attributeError => "attribute error in classify".data

/-- Steps of the upload branch after the fetch of the PDF bytes succeeded:
text extraction, the empty-text guard, the model call, reply processing and
persistence (lines 728-742 of `app.py`).  `eff0` carries the effects already
performed (staging or the HTTP GET). -/
def ingestBytes (env : IngestEnv) (pdf_bytes : Bytes) (source : PyStr)
    (file_path : Option PyStr) (eff0 : List Effect) : Outcome × List Effect :=
  match env.extract pdf_bytes with
  | .error e => (.failed ("Error: ".data ++ e), eff0)
  | .ok text =>
    if (pyStrip text).isEmpty then
      (.failed "Could not extract any text from the PDF.".data, eff0)
    else
      let snippet := text.take 8000
      let eff1 := eff0 ++ [Effect.modelCall snippet]
      match env.modelCall snippet with
      | .error e => (.failed ("Error: ".data ++ e), eff1)
      | .ok reply =>
        match classifyReply reply with
        | .error e => (.failed ("Error: ".data ++ errText e), eff1)
        | .ok result =>
          let r : SavedRecord :=
            { title := result.title, source := source,
              main_category := result.main_category,
              industry := result.industry,
              short_summary := result.short_summary,
              file_path := file_path }
          (.redirect, eff1 ++ [Effect.insertRecord r])

/-- The upload branch of `index` (lines 700-745 of `app.py`): strip the form
fields, run the entry guard, then stage the file or fetch the URL and hand
over to `ingestBytes`.  Every failure is the caught-exception banner or one of
the literal validation messages; the effect list records what was done. -/
def processUpload (env : IngestEnv) (form : UploadForm) : Outcome × List Effect :=
  let api_key := pyStrip form.api_key
  let pdf_url := pyStrip form.pdf_url
  if api_key.isEmpty then
    (.failed "OpenAI API key is required.".data, [])
  else if !fileTruthy form.pdf_file && pdf_url.isEmpty then
    (.failed "Please upload a PDF file or provide a PDF URL.".data, [])
  else
    match form.pdf_file with
    | some f =>
      if !f.filename.isEmpty then
        let path := env.stagePath f.filename
        ingestBytes env f.content ("File: ".data ++ f.filename) (some path)
          [Effect.stageFile path f.content]
      else
        match env.fetch pdf_url with
        | .error e => (.failed ("Error: ".data ++ e), [Effect.httpGet pdf_url])
        | .ok pdf_bytes =>
          ingestBytes env pdf_bytes ("URL: ".data ++ pdf_url) none
            [Effect.httpGet pdf_url]
    | none =>
      match env.fetch pdf_url with
      | .error e => (.failed ("Error: ".data ++ e), [Effect.httpGet pdf_url])
      | .ok pdf_bytes =>
        ingestBytes env pdf_bytes ("URL: ".data ++ pdf_url) none
          [Effect.httpGet pdf_url]

/-- Records used by concrete witnesses below. -/
def rec1 : Record :=
  { id := 1, title := "A".data, source := "File: a.pdf".data,
    main_category := "Retail".data, industry := "Energy".data,
    short_summary := "s1".data, file_path := some "uploads/1_a.pdf".data,
    created_at := "2024-01-01T00:00:00".data }

def rec2 : Record :=
  { id := 2, title := "B".data, source := "URL: http://x".data,
    main_category := "Institutional".data, industry := "Banking".data,
    short_summary := "s2".data, file_path := none,
    created_at := "2024-02-01T00:00:00".data }

def rec3 : Record :=
  { id := 3, title := "C".data, source := "File: c.pdf".data,
    main_category := "Retail".data, industry := "Banking".data,
    short_summary := "s3".data, file_path := none,
    created_at := "2024-03-01T00:00:00".data }

/-- C10: after `delete_whitepaper id` the id is gone from `load_whitepapers`,
every record with a different id survives untouched, and deleting an id that
is not present is a no-op (and the model is a total function, so no error is
raised). -/
theorem claim10_delete_semantics (db : List Record) (wp_id : Int) :
    (∀ r, r ∈ load_whitepapers (delete_whitepaper db wp_id) ↔
      r ∈ db ∧ r.id ≠ wp_id) ∧
    ((∀ r ∈ db, r.id ≠ wp_id) → delete_whitepaper db wp_id = db) := by
  constructor
  · intro r
    simp [load_whitepapers, delete_whitepaper, List.mem_filter]
  · intro h
    simp only [delete_whitepaper]
    rw [List.filter_eq_self]
    intro r hr
    simpa using h r hr

/-- Witness for C10 at a concrete store: id 99 is absent, deleting it is a
no-op, and after deleting id 2 that record is gone while the others remain. -/
theorem claim10_delete_witness :
    ((∀ r ∈ [rec1, rec2, rec3], r.id ≠ 99) ∧
      delete_whitepaper [rec1, rec2, rec3] 99 = [rec1, rec2, rec3]) ∧
    (rec2 ∈ load_whitepapers (delete_whitepaper [rec1, rec2, rec3] 2) ↔
      rec2 ∈ [rec1, rec2, rec3] ∧ rec2.id ≠ 2) :=
  ⟨⟨by decide, (claim10_delete_semantics [rec1, rec2, rec3] 99).2 (by decide)⟩,
    (claim10_delete_semantics [rec1, rec2, rec3] 2).1 rec2⟩

/-- C9: filtering of the listing is exact-match equality, an empty filter is
a pass-through, and the combined filter is the intersection of the two
single-filter results. -/
theorem claim9_filter_semantics (fmc fi : PyStr) (ws : List Record) :
    (applyFilters [] [] ws = ws) ∧
    (fmc ≠ [] → ∀ w, w ∈ applyFilters fmc [] ws ↔
      w ∈ ws ∧ w.main_category = fmc) ∧
    (fi ≠ [] → ∀ w, w ∈ applyFilters [] fi ws ↔
      w ∈ ws ∧ w.industry = fi) ∧
    (∀ w, w ∈ applyFilters fmc fi ws ↔
      w ∈ applyFilters fmc [] ws ∧ w ∈ applyFilters [] fi ws) := by
  refine ⟨by simp [applyFilters], ?_, ?_, ?_⟩
  · intro h w
    have : fmc.isEmpty = false := by
      cases fmc with
      | nil => exact absurd rfl h
      | cons c cs => rfl
    simp [applyFilters, this, List.mem_filter]
  · intro h w
    have : fi.isEmpty = false := by
      cases fi with
      | nil => exact absurd rfl h
      | cons c cs => rfl
    simp [applyFilters, this, List.mem_filter]
  · intro w
    by_cases hm : fmc.isEmpty <;> by_cases hi : fi.isEmpty <;>
      simp [applyFilters, hm, hi, List.mem_filter] <;> tauto

/-- Witness for C9 at concrete data: filtering by Retail keeps exactly the
Retail records, and the two-filter result is the intersection. -/
theorem claim9_filter_witness :
    ("Retail".data ≠ ([] : PyStr) ∧
      (rec3 ∈ applyFilters "Retail".data [] [rec1, rec2, rec3] ↔
        rec3 ∈ [rec1, rec2, rec3] ∧ rec3.main_category = "Retail".data)) ∧
    (rec3 ∈ applyFilters "Retail".data "Banking".data [rec1, rec2, rec3] ↔
      rec3 ∈ applyFilters "Retail".data [] [rec1, rec2, rec3] ∧
        rec3 ∈ applyFilters [] "Banking".data [rec1, rec2, rec3]) :=
  ⟨⟨by decide,
    (claim9_filter_semantics "Retail".data "Banking".data [rec1, rec2, rec3]).2.1
      (by decide) rec3⟩,
    (claim9_filter_semantics "Retail".data "Banking".data [rec1, rec2, rec3]).2.2.2 rec3⟩

/-- Specification-side predicate: `i` is the position of the first occurrence
of `c` in `s`. -/
def isFirstOcc (c : Char) (s : PyStr) (i : Nat) : Prop :=
  ∃ pre post, s = pre ++ c :: post ∧ pre.length = i ∧ c ∉ pre

/-- Specification-side predicate: `i` is the position of the last occurrence
of `c` in `s`. -/
def isLastOcc (c : Char) (s : PyStr) (i : Nat) : Prop :=
  ∃ pre post, s = pre ++ c :: post ∧ pre.length = i ∧ c ∉ post

theorem findFirstAux_eq_none {c : Char} {s : PyStr} :
    findFirstAux c s = none ↔ c ∉ s := by
  induction s with
  | nil => simp [findFirstAux]
  | cons x xs ih =>
    by_cases h : x = c
    · simp [findFirstAux, h]
    · have hmap : (findFirstAux c xs).map (· + 1) = none ↔
          findFirstAux c xs = none := by
        cases findFirstAux c xs <;> simp
      rw [findFirstAux, if_neg h, hmap, ih]
      constructor
      · intro hn hc
        rcases List.mem_cons.mp hc with h1 | h2
        · exact h h1.symm
        · exact hn h2
      · intro hn h2
        exact hn (List.mem_cons_of_mem x h2)

theorem findFirstAux_append {c : Char} {pre post : PyStr} (h : c ∉ pre) :
    findFirstAux c (pre ++ c :: post) = some pre.length := by
  induction pre with
  | nil => simp [findFirstAux]
  | cons x xs ih =>
    have hx : x ≠ c := fun he => h (he ▸ List.mem_cons_self x xs)
    have hxs : c ∉ xs := fun hm => h (List.mem_cons_of_mem x hm)
    simp [findFirstAux, hx, ih hxs]

theorem pyFind_of_firstOcc {c : Char} {s : PyStr} {i : Nat}
    (h : isFirstOcc c s i) : pyFind s c = (i : Int) := by
  obtain ⟨pre, post, hs, hlen, hmem⟩ := h
  subst hs; subst hlen
  simp [pyFind, findFirstAux_append hmem]

theorem pyRfind_of_lastOcc {c : Char} {s : PyStr} {i : Nat}
    (h : isLastOcc c s i) : pyRfind s c = (i : Int) := by
  obtain ⟨pre, post, hs, hlen, hmem⟩ := h
  subst hs; subst hlen
  have hrev : (pre ++ c :: post).reverse = post.reverse ++ c :: pre.reverse := by
    simp [List.reverse_append]
  have hmem' : c ∉ post.reverse := by simpa using hmem
  have hfind := @findFirstAux_append c post.reverse pre.reverse hmem'
  simp only [pyRfind, hrev, hfind, List.length_reverse, List.length_append,
    List.length_cons, Int.ofNat_eq_coe]
  congr 1
  omega

theorem pyFind_of_not_mem {c : Char} {s : PyStr} (h : c ∉ s) :
    pyFind s c = -1 := by
  simp [pyFind, findFirstAux_eq_none.mpr h]

theorem pyRfind_of_not_mem {c : Char} {s : PyStr} (h : c ∉ s) :
    pyRfind s c = -1 := by
  have : c ∉ s.reverse := by simpa using h
  simp [pyRfind, findFirstAux_eq_none.mpr this]

theorem braceSlice_of_occs {s : PyStr} {fb lb : Nat}
    (h1 : isFirstOcc '{' s fb) (h2 : isLastOcc '}' s lb) (hlt : fb < lb) :
    braceSlice s = (s.drop fb).take (lb + 1 - fb) := by
  have e1 := pyFind_of_firstOcc h1
  have e2 := pyRfind_of_lastOcc h2
  simp only [braceSlice, e1, e2]
  rw [if_pos]
  · have t1 : ((fb : Int)).toNat = fb := by omega
    have t2 : ((lb : Int) + 1).toNat = lb + 1 := by omega
    rw [pySlice, t1, t2]
  · refine ⟨by omega, by omega, ?_⟩
    exact_mod_cast hlt

theorem braceSlice_of_occs_ge {s : PyStr} {fb lb : Nat}
    (h1 : isFirstOcc '{' s fb) (h2 : isLastOcc '}' s lb) (hge : ¬ fb < lb) :
    braceSlice s = s := by
  have e1 := pyFind_of_firstOcc h1
  have e2 := pyRfind_of_lastOcc h2
  simp only [braceSlice, e1, e2]
  rw [if_neg]
  rintro ⟨-, -, hgt⟩
  exact hge (by exact_mod_cast hgt)

theorem braceSlice_of_no_brace {s : PyStr} (h : '{' ∉ s ∨ '}' ∉ s) :
    braceSlice s = s := by
  rcases h with h | h
  · simp only [braceSlice, pyFind_of_not_mem h]
    simp
  · simp only [braceSlice, pyRfind_of_not_mem h]
    simp

/-- C2: the substring handed to the JSON parser is exactly the claim's
description: with `fb` the first position of an opening brace and `lb` the
last position of a closing brace in the stripped reply, the slice from `fb`
through `lb` inclusive is parsed when both exist and `lb` is strictly
greater, and the whole stripped reply is parsed otherwise; `classify` feeds
precisely that substring to the parser. -/
theorem claim2_brace_slice_protocol (reply : PyStr) :
    (∀ fb lb, isFirstOcc '{' (pyStrip reply) fb →
      isLastOcc '}' (pyStrip reply) lb →
      (fb < lb →
        jsonSliceOf reply = ((pyStrip reply).drop fb).take (lb + 1 - fb)) ∧
      (¬ fb < lb → jsonSliceOf reply = pyStrip reply)) ∧
    (('{' ∉ pyStrip reply ∨ '}' ∉ pyStrip reply) →
      jsonSliceOf reply = pyStrip reply) ∧
    (∀ e, parseJson (jsonSliceOf reply) = .error e →
      classifyReply reply = .error (.formatError (pyStrip reply) e)) ∧
    (∀ d, parseJson (jsonSliceOf reply) = .ok d →
      classifyReply reply = extractResult d) := by
  refine ⟨?_, ?_, ?_, ?_⟩
  · intro fb lb h1 h2
    exact ⟨fun hlt => braceSlice_of_occs h1 h2 hlt,
      fun hge => braceSlice_of_occs_ge h1 h2 hge⟩
  · intro h
    exact braceSlice_of_no_brace h
  · intro e he
    simp only [classifyReply, jsonSliceOf] at he ⊢
    rw [he]
  · intro d hd
    simp only [classifyReply, jsonSliceOf] at hd ⊢
    rw [hd]

/-- Witness for C2 at the reply `a\x7bb\x7dc`: the first opening brace is at 1,
the last closing brace at 3, and the parsed slice is `\x7bb\x7d`. -/
theorem claim2_brace_slice_witness :
    isFirstOcc '{' (pyStrip "a\x7bb\x7dc".data) 1 ∧
    isLastOcc '}' (pyStrip "a\x7bb\x7dc".data) 3 ∧
    jsonSliceOf "a\x7bb\x7dc".data = ((pyStrip "a\x7bb\x7dc".data).drop 1).take 3 := by
  have h1 : isFirstOcc '{' (pyStrip "a\x7bb\x7dc".data) 1 :=
    ⟨"a".data, "b\x7dc".data, by decide, by decide, by decide⟩
  have h2 : isLastOcc '}' (pyStrip "a\x7bb\x7dc".data) 3 :=
    ⟨"a\x7bb".data, "c".data, by decide, by decide, by decide⟩
  exact ⟨h1, h2,
    ((claim2_brace_slice_protocol "a\x7bb\x7dc".data).1 1 3 h1 h2).1 (by decide)⟩

theorem jsonStrip_ok {v : Json} {t : PyStr} (h : jsonStrip v = .ok t) :
    ∃ s, v = Json.str s ∧ t = pyStrip s := by
  cases v with
  | str s =>
    refine ⟨s, rfl, ?_⟩
    simpa [jsonStrip] using h.symm
  | null => simp [jsonStrip] at h
  | bool b => simp [jsonStrip] at h
  | num l => simp [jsonStrip] at h
  | arr xs => simp [jsonStrip] at h
  | obj kvs => simp [jsonStrip] at h

theorem jsonStrip_error {v : Json} {e : PyErr} (h : jsonStrip v = .error e) :
    e = PyErr.attributeError := by
  cases v <;> simp [jsonStrip] at h <;> (try exact h.symm)

/-- Decomposition of a successful run of the field-extraction step. -/
theorem extractResult_obj_ok {kvs : List (PyStr × Json)}
    {res : ClassificationResult}
    (h : extractResult (Json.obj kvs) = .ok res) :
    ∃ t a i0 ss rat,
      jsonStrip (dictGet kvs keyTitle dfltTitle) = .ok t ∧
      jsonStrip (dictGet kvs keyAudience dfltAudience) = .ok a ∧
      jsonStrip (dictGet kvs keyIndustry dfltIndustry) = .ok i0 ∧
      jsonStrip (dictGet kvs keySummary dfltEmpty) = .ok ss ∧
      jsonStrip (dictGet kvs keyRationale dfltEmpty) = .ok rat ∧
      res = { title := t,
              main_category :=
                if a ∈ MAIN_CATEGORIES then a else "Nondescript".data,
              industry := if i0 ∈ INDUSTRIES then i0 else "Other".data,
              short_summary := ss, audience := a,
              audience_confidence := dictGet kvs keyConfidence dfltZero,
              audience_rationale := rat } := by
  simp only [extractResult] at h
  cases h1 : jsonStrip (dictGet kvs keyTitle dfltTitle) with
  | error e => rw [h1] at h; exact Except.noConfusion h
  | ok t =>
  cases h2 : jsonStrip (dictGet kvs keyAudience dfltAudience) with
  | error e => rw [h1, h2] at h; exact Except.noConfusion h
  | ok a =>
  cases h3 : jsonStrip (dictGet kvs keyIndustry dfltIndustry) with
  | error e => rw [h1, h2, h3] at h; exact Except.noConfusion h
  | ok i0 =>
  cases h4 : jsonStrip (dictGet kvs keySummary dfltEmpty) with
  | error e => rw [h1, h2, h3, h4] at h; exact Except.noConfusion h
  | ok ss =>
  cases h5 : jsonStrip (dictGet kvs keyRationale dfltEmpty) with
  | error e => rw [h1, h2, h3, h4, h5] at h; exact Except.noConfusion h
  | ok rat =>
    rw [h1, h2, h3, h4, h5] at h
    refine ⟨t, a, i0, ss, rat, rfl, rfl, rfl, rfl, rfl, ?_⟩
    exact (Except.ok.inj h).symm

/-- Every successful extraction lands in the closed enumerations. -/
theorem extract_mem {d : Json} {res : ClassificationResult}
    (h : extractResult d = .ok res) :
    res.main_category ∈ MAIN_CATEGORIES ∧ res.industry ∈ INDUSTRIES := by
  cases d with
  | obj kvs =>
    obtain ⟨t, a, i0, ss, rat, -, -, -, -, -, hres⟩ := extractResult_obj_ok h
    subst hres
    constructor
    · show (if a ∈ MAIN_CATEGORIES then a else "Nondescript".data) ∈ MAIN_CATEGORIES
      by_cases ha : a ∈ MAIN_CATEGORIES
      · rwa [if_pos ha]
      · rw [if_neg ha]; decide
    · show (if i0 ∈ INDUSTRIES then i0 else "Other".data) ∈ INDUSTRIES
      by_cases hi : i0 ∈ INDUSTRIES
      · rwa [if_pos hi]
      · rw [if_neg hi]; decide
  | null => simp [extractResult] at h
  | bool b => simp [extractResult] at h
  | num l => simp [extractResult] at h
  | str s => simp [extractResult] at h
  | arr xs => simp [extractResult] at h

/-- Field extraction never raises the format error: its only failure mode is
the attribute error. -/
theorem extractResult_error_attr {d : Json} {e : PyErr}
    (h : extractResult d = .error e) : e = PyErr.attributeError := by
  cases d with
  | obj kvs =>
    simp only [extractResult] at h
    cases h1 : jsonStrip (dictGet kvs keyTitle dfltTitle) with
    | error e1 => rw [h1] at h; exact Except.error.inj h ▸ jsonStrip_error h1
    | ok t =>
    cases h2 : jsonStrip (dictGet kvs keyAudience dfltAudience) with
    | error e2 => rw [h1, h2] at h; exact Except.error.inj h ▸ jsonStrip_error h2
    | ok a =>
    cases h3 : jsonStrip (dictGet kvs keyIndustry dfltIndustry) with
    | error e3 =>
      rw [h1, h2, h3] at h
      exact Except.error.inj h ▸ jsonStrip_error h3
    | ok i0 =>
    cases h4 : jsonStrip (dictGet kvs keySummary dfltEmpty) with
    | error e4 =>
      rw [h1, h2, h3, h4] at h
      exact Except.error.inj h ▸ jsonStrip_error h4
    | ok ss =>
    cases h5 : jsonStrip (dictGet kvs keyRationale dfltEmpty) with
    | error e5 =>
      rw [h1, h2, h3, h4, h5] at h
      exact Except.error.inj h ▸ jsonStrip_error h5
    | ok rat => rw [h1, h2, h3, h4, h5] at h; exact Except.noConfusion h
  | null => simp [extractResult] at h; exact h.symm
  | bool b => simp [extractResult] at h; exact h.symm
  | num l => simp [extractResult] at h; exact h.symm
  | str s => simp [extractResult] at h; exact h.symm
  | arr xs => simp [extractResult] at h; exact h.symm

/-- Complete case analysis of `ingestBytes`: either some step failed, no
record was inserted and at most the model call was added to the effects, or
every step succeeded, the outcome is the redirect, and exactly the model
call and the insertion of the record built from the classification result
were added. -/
theorem ingestBytes_cases (env : IngestEnv) (pdf_bytes : Bytes)
    (source : PyStr) (fp : Option PyStr) (eff0 : List Effect) :
    ((∃ msg, (ingestBytes env pdf_bytes source fp eff0).1 = .failed msg) ∧
      ((ingestBytes env pdf_bytes source fp eff0).2 = eff0 ∨
        ∃ sn, (ingestBytes env pdf_bytes source fp eff0).2 =
          eff0 ++ [Effect.modelCall sn])) ∨
    (∃ text reply res,
      env.extract pdf_bytes = .ok text ∧ (pyStrip text).isEmpty = false ∧
      env.modelCall (text.take 8000) = .ok reply ∧
      classifyReply reply = .ok res ∧
      (ingestBytes env pdf_bytes source fp eff0).1 = .redirect ∧
      (ingestBytes env pdf_bytes source fp eff0).2 =
        eff0 ++ [Effect.modelCall (text.take 8000),
          Effect.insertRecord
            { title := res.title, source := source,
              main_category := res.main_category, industry := res.industry,
              short_summary := res.short_summary, file_path := fp }]) := by
  cases hex : env.extract pdf_bytes with
  | error er =>
    refine Or.inl ⟨⟨"Error: ".data ++ er, ?_⟩, Or.inl ?_⟩ <;>
      simp [ingestBytes, hex]
  | ok text =>
    cases hemp : (pyStrip text).isEmpty with
    | true =>
      refine Or.inl ⟨⟨"Could not extract any text from the PDF.".data, ?_⟩,
        Or.inl ?_⟩ <;> simp [ingestBytes, hex, hemp]
    | false =>
      cases hmc : env.modelCall (text.take 8000) with
      | error er =>
        refine Or.inl ⟨⟨"Error: ".data ++ er, ?_⟩,
          Or.inr ⟨text.take 8000, ?_⟩⟩ <;> simp [ingestBytes, hex, hemp, hmc]
      | ok reply =>
        cases hcr : classifyReply reply with
        | error er =>
          refine Or.inl ⟨⟨"Error: ".data ++ errText er, ?_⟩,
            Or.inr ⟨text.take 8000, ?_⟩⟩ <;>
            simp [ingestBytes, hex, hemp, hmc, hcr]
        | ok res =>
          refine Or.inr ⟨text, reply, res, rfl, hemp, hmc, hcr, ?_, ?_⟩ <;>
            simp [ingestBytes, hex, hemp, hmc, hcr]

/-- A record is inserted only on the fully successful path: the outcome is
then the redirect and the record is built from a successful classification
result. -/
theorem processUpload_insert {env : IngestEnv} {form : UploadForm}
    {r : SavedRecord}
    (h : Effect.insertRecord r ∈ (processUpload env form).2) :
    (processUpload env form).1 = .redirect ∧
    ∃ reply res, classifyReply reply = .ok res ∧
      r.main_category = res.main_category ∧ r.industry = res.industry := by
  cases hk : (pyStrip form.api_key).isEmpty with
  | true => simp [processUpload, hk] at h
  | false =>
  cases hguard : !fileTruthy form.pdf_file && (pyStrip form.pdf_url).isEmpty with
  | true => simp [processUpload, hk, hguard] at h
  | false =>
  have main : ∀ (pdf_bytes : Bytes) (source : PyStr) (fp : Option PyStr)
      (eff0 : List Effect),
      (∀ r', Effect.insertRecord r' ∉ eff0) →
      Effect.insertRecord r ∈ (ingestBytes env pdf_bytes source fp eff0).2 →
      (ingestBytes env pdf_bytes source fp eff0).1 = .redirect ∧
      ∃ reply res, classifyReply reply = .ok res ∧
        r.main_category = res.main_category ∧ r.industry = res.industry := by
    intro pdf_bytes source fp eff0 h0 hmem
    rcases ingestBytes_cases env pdf_bytes source fp eff0 with
      ⟨⟨msg, hfail⟩, heff | ⟨sn, heff⟩⟩ |
      ⟨text, reply, res, hex, hemp, hmc, hcr, hout, heff⟩
    · rw [heff] at hmem
      exact absurd hmem (h0 r)
    · rw [heff] at hmem
      rcases List.mem_append.mp hmem with hmem | hmem
      · exact absurd hmem (h0 r)
      · simp at hmem
    · rw [heff] at hmem
      rcases List.mem_append.mp hmem with hmem | hmem
      · exact absurd hmem (h0 r)
      · simp at hmem
        refine ⟨hout, reply, res, hcr, ?_, ?_⟩ <;> rw [hmem]
  cases hf : form.pdf_file with
  | none =>
    have hft : fileTruthy form.pdf_file = false := by rw [hf]; rfl
    have hurl : ¬ pyStrip form.pdf_url = [] := by
      intro hp
      rw [hft, hp] at hguard
      simp at hguard
    cases hfetch : env.fetch (pyStrip form.pdf_url) with
    | error er =>
      simp [processUpload, hk, hf, hurl, hfetch, fileTruthy] at h
    | ok pdf_bytes =>
      have hred := main pdf_bytes ("URL: ".data ++ pyStrip form.pdf_url) none
        [Effect.httpGet (pyStrip form.pdf_url)] (by intro r'; simp)
        (by simpa [processUpload, hk, hf, hurl, hfetch, fileTruthy] using h)
      simpa [processUpload, hk, hf, hurl, hfetch, fileTruthy] using hred
  | some f =>
    cases hfn : f.filename.isEmpty with
    | false =>
      have hred := main f.content ("File: ".data ++ f.filename)
        (some (env.stagePath f.filename))
        [Effect.stageFile (env.stagePath f.filename) f.content]
        (by intro r'; simp)
        (by simpa [processUpload, hk, hf, hfn, fileTruthy] using h)
      simpa [processUpload, hk, hf, hfn, fileTruthy] using hred
    | true =>
      have hft : fileTruthy form.pdf_file = false := by
        rw [hf]; simp [fileTruthy, hfn]
      have hurl : ¬ pyStrip form.pdf_url = [] := by
        intro hp
        rw [hft, hp] at hguard
        simp at hguard
      cases hfetch : env.fetch (pyStrip form.pdf_url) with
      | error er =>
        simp [processUpload, hk, hf, hfn, hurl, hfetch, fileTruthy] at h
      | ok pdf_bytes =>
        have hred := main pdf_bytes ("URL: ".data ++ pyStrip form.pdf_url) none
          [Effect.httpGet (pyStrip form.pdf_url)] (by intro r'; simp)
          (by simpa [processUpload, hk, hf, hfn, hurl, hfetch, fileTruthy] using h)
        simpa [processUpload, hk, hf, hfn, hurl, hfetch, fileTruthy] using hred

/-- Any successful classification lands in the closed enumerations. -/
theorem classifyReply_ok_mem {reply : PyStr} {res : ClassificationResult}
    (h : classifyReply reply = .ok res) :
    res.main_category ∈ MAIN_CATEGORIES ∧ res.industry ∈ INDUSTRIES := by
  simp only [classifyReply] at h
  cases hp : parseJson (braceSlice (pyStrip reply)) with
  | error e => rw [hp] at h; exact Except.noConfusion h
  | ok d => rw [hp] at h; exact extract_mem h

/-- C1: whenever the reply is processed to a classification result, its
`main_category` is in the three-member audience list and its `industry` in
the closed industry list (which contains "Other"); an audience outside the
list is coerced to "Nondescript" and an industry outside the list to
"Other"; and every record the pipeline inserts carries these coerced
values, hence lies in the closed sets. -/
theorem claim1_closed_enumerations :
    (∀ reply res, classifyReply reply = .ok res →
      res.main_category ∈ MAIN_CATEGORIES ∧ res.industry ∈ INDUSTRIES) ∧
    (∀ kvs res, extractResult (Json.obj kvs) = .ok res →
      (res.audience ∉ MAIN_CATEGORIES → res.main_category = "Nondescript".data) ∧
      (∀ s, dictGet kvs keyIndustry dfltIndustry = Json.str s →
        pyStrip s ∉ INDUSTRIES → res.industry = "Other".data)) ∧
    (∀ env form r, Effect.insertRecord r ∈ (processUpload env form).2 →
      r.main_category ∈ MAIN_CATEGORIES ∧ r.industry ∈ INDUSTRIES) := by
  refine ⟨fun reply res h => classifyReply_ok_mem h, ?_, ?_⟩
  · intro kvs res h
    obtain ⟨t, a, i0, ss, rat, h1, h2, h3, h4, h5, hres⟩ := extractResult_obj_ok h
    subst hres
    constructor
    · intro hna
      have hna' : a ∉ MAIN_CATEGORIES := hna
      exact if_neg hna'
    · intro s hs hnot
      rw [hs] at h3
      have hi : i0 = pyStrip s := by
        have h3' : Except.ok (pyStrip s) = Except.ok i0 := h3
        exact (Except.ok.inj h3').symm
      subst hi
      exact if_neg hnot
  · intro env form r h
    obtain ⟨-, reply, res, hcr, hm, hi⟩ := processUpload_insert h
    rw [hm, hi]
    exact classifyReply_ok_mem hcr

/-- Concrete reply used by the witness of C1: prose around an object whose
audience and industry are outside the closed lists. -/
def c1reply : PyStr :=
  "noise \x7b\"audience\": \"Weird\", \"industry\": \"Nope\"\x7d tail".data

/-- The classification result the model of `classify` produces on `c1reply`. -/
def c1res : ClassificationResult :=
  { title := "Untitled".data, main_category := "Nondescript".data,
    industry := "Other".data, short_summary := [],
    audience := "Weird".data, audience_confidence := Json.num "0".data,
    audience_rationale := [] }

/-- Witness for C1: a reply wrapped in prose whose audience and industry are
outside the closed lists is coerced to "Nondescript"/"Other", which are in
the lists. -/
theorem claim1_closed_enumerations_witness :
    classifyReply c1reply = .ok c1res ∧
    c1res.main_category ∈ MAIN_CATEGORIES ∧ c1res.industry ∈ INDUSTRIES ∧
    c1res.main_category = "Nondescript".data ∧ c1res.industry = "Other".data := by
  have h : classifyReply c1reply = .ok c1res := by rfl
  exact ⟨h, (claim1_closed_enumerations.1 c1reply c1res h).1,
    (claim1_closed_enumerations.1 c1reply c1res h).2, rfl, rfl⟩

/-- C7: field extraction defaults absent keys (title "Untitled", audience
"Nondescript", industry "Other", short_summary empty, audience_confidence 0,
audience_rationale empty) and trims every extracted string field; for the
industry the trimmed value is then coerced into the closed list. -/
theorem claim7_defaults_and_trimming (kvs : List (PyStr × Json))
    (res : ClassificationResult)
    (h : extractResult (Json.obj kvs) = .ok res) :
    (lookupLast kvs keyTitle = none → res.title = "Untitled".data) ∧
    (∀ s, lookupLast kvs keyTitle = some (Json.str s) →
      res.title = pyStrip s) ∧
    (lookupLast kvs keyAudience = none → res.audience = "Nondescript".data) ∧
    (∀ s, lookupLast kvs keyAudience = some (Json.str s) →
      res.audience = pyStrip s) ∧
    (lookupLast kvs keyIndustry = none → res.industry = "Other".data) ∧
    (∀ s, lookupLast kvs keyIndustry = some (Json.str s) →
      res.industry = (if pyStrip s ∈ INDUSTRIES then pyStrip s
        else "Other".data)) ∧
    (lookupLast kvs keySummary = none → res.short_summary = []) ∧
    (∀ s, lookupLast kvs keySummary = some (Json.str s) →
      res.short_summary = pyStrip s) ∧
    (lookupLast kvs keyConfidence = none →
      res.audience_confidence = Json.num "0".data) ∧
    (lookupLast kvs keyRationale = none → res.audience_rationale = []) ∧
    (∀ s, lookupLast kvs keyRationale = some (Json.str s) →
      res.audience_rationale = pyStrip s) := by
  obtain ⟨t, a, i0, ss, rat, h1, h2, h3, h4, h5, hres⟩ := extractResult_obj_ok h
  subst hres
  refine ⟨?_, ?_, ?_, ?_, ?_, ?_, ?_, ?_, ?_, ?_, ?_⟩
  · intro hn
    rw [dictGet, hn, Option.getD_none] at h1
    have h1' : Except.ok (pyStrip "Untitled".data) = Except.ok t := h1
    have := (Except.ok.inj h1').symm
    show t = "Untitled".data
    rw [this]; decide
  · intro s hs
    rw [dictGet, hs, Option.getD_some] at h1
    have h1' : Except.ok (pyStrip s) = Except.ok t := h1
    exact (Except.ok.inj h1').symm
  · intro hn
    rw [dictGet, hn, Option.getD_none] at h2
    have h2' : Except.ok (pyStrip "Nondescript".data) = Except.ok a := h2
    have := (Except.ok.inj h2').symm
    show a = "Nondescript".data
    rw [this]; decide
  · intro s hs
    rw [dictGet, hs, Option.getD_some] at h2
    have h2' : Except.ok (pyStrip s) = Except.ok a := h2
    exact (Except.ok.inj h2').symm
  · intro hn
    rw [dictGet, hn, Option.getD_none] at h3
    have h3' : Except.ok (pyStrip "Other".data) = Except.ok i0 := h3
    have hi := (Except.ok.inj h3').symm
    show (if i0 ∈ INDUSTRIES then i0 else "Other".data) = "Other".data
    rw [hi]
    decide
  · intro s hs
    rw [dictGet, hs, Option.getD_some] at h3
    have h3' : Except.ok (pyStrip s) = Except.ok i0 := h3
    have hi := (Except.ok.inj h3').symm
    show (if i0 ∈ INDUSTRIES then i0 else "Other".data) = _
    rw [hi]
  · intro hn
    rw [dictGet, hn, Option.getD_none] at h4
    have h4' : Except.ok (pyStrip []) = Except.ok ss := h4
    have := (Except.ok.inj h4').symm
    show ss = []
    rw [this]; decide
  · intro s hs
    rw [dictGet, hs, Option.getD_some] at h4
    have h4' : Except.ok (pyStrip s) = Except.ok ss := h4
    exact (Except.ok.inj h4').symm
  · intro hn
    show dictGet kvs keyConfidence dfltZero = Json.num "0".data
    rw [dictGet, hn, Option.getD_none]
    rfl
  · intro hn
    rw [dictGet, hn, Option.getD_none] at h5
    have h5' : Except.ok (pyStrip []) = Except.ok rat := h5
    have := (Except.ok.inj h5').symm
    show rat = []
    rw [this]; decide
  · intro s hs
    rw [dictGet, hs, Option.getD_some] at h5
    have h5' : Except.ok (pyStrip s) = Except.ok rat := h5
    exact (Except.ok.inj h5').symm

/-- Object used by the witness of C7: only `title` (with surrounding
whitespace) and `audience_confidence` present. -/
def c7kvs : List (PyStr × Json) :=
  [(keyTitle, Json.str "  My Title ".data), (keyConfidence, Json.num "7".data)]

/-- The extraction result on `c7kvs`. -/
def c7res : ClassificationResult :=
  { title := "My Title".data, main_category := "Nondescript".data,
    industry := "Other".data, short_summary := [],
    audience := "Nondescript".data, audience_confidence := Json.num "7".data,
    audience_rationale := [] }

/-- Witness for C7: the present `title` is trimmed, the absent fields take
their documented defaults. -/
theorem claim7_defaults_and_trimming_witness :
    extractResult (Json.obj c7kvs) = .ok c7res ∧
    c7res.title = pyStrip "  My Title ".data ∧
    c7res.audience = "Nondescript".data ∧ c7res.industry = "Other".data ∧
    c7res.short_summary = [] ∧ c7res.audience_rationale = [] := by
  have h : extractResult (Json.obj c7kvs) = .ok c7res := by rfl
  have hc := claim7_defaults_and_trimming c7kvs c7res h
  exact ⟨h, hc.2.1 _ (by rfl), hc.2.2.1 (by rfl), hc.2.2.2.2.1 (by rfl),
    hc.2.2.2.2.2.2.1 (by rfl), hc.2.2.2.2.2.2.2.2.2.1 (by rfl)⟩

/-- C8: `classify` raises the raw-reply-bearing format error exactly when the
JSON parse of the chosen slice fails; a slice that parses to a non-object
(the bare number 42) or an object with a `null` field instead raises the
attribute-error class of exceptions from field extraction; and the defaults
apply only to absent keys, not to keys present with `null`. -/
theorem claim8_format_error_iff :
    (∀ reply, (∃ det, classifyReply reply =
        .error (.formatError (pyStrip reply) det)) ↔
      (∃ e, parseJson (jsonSliceOf reply) = .error e)) ∧
    classifyReply "42".data = .error PyErr.attributeError ∧
    parseJson (jsonSliceOf "42".data) = .ok (Json.num "42".data) ∧
    classifyReply "\x7b\"title\": null\x7d".data = .error PyErr.attributeError ∧
    extractResult (Json.obj [(keyTitle, Json.null)]) =
      .error PyErr.attributeError ∧
    extractResult (Json.obj []) = .ok
      { title := "Untitled".data, main_category := "Nondescript".data,
        industry := "Other".data, short_summary := [],
        audience := "Nondescript".data,
        audience_confidence := Json.num "0".data,
        audience_rationale := [] } := by
  refine ⟨?_, by rfl, by rfl, by rfl, by rfl, by rfl⟩
  intro reply
  constructor
  · rintro ⟨det, h⟩
    simp only [classifyReply] at h
    cases hp : parseJson (braceSlice (pyStrip reply)) with
    | error e => exact ⟨e, hp⟩
    | ok d =>
      rw [hp] at h
      exact absurd (extractResult_error_attr h) (by simp)
  · rintro ⟨e, hp⟩
    refine ⟨e, ?_⟩
    have hp' : parseJson (braceSlice (pyStrip reply)) = .error e := hp
    simp only [classifyReply]
    rw [hp']

/-- Slicing an object wrapped in brace-free prose recovers exactly the
object text. -/
theorem braceSlice_wrap {pre mid post : PyStr}
    (hpre : '{' ∉ pre) (hpost : '}' ∉ post) :
    braceSlice (pre ++ ('{' :: mid ++ ['}']) ++ post) =
      '{' :: mid ++ ['}'] := by
  have h1 : isFirstOcc '{' (pre ++ ('{' :: mid ++ ['}']) ++ post)
      pre.length :=
    ⟨pre, mid ++ ['}'] ++ post, by simp, rfl, hpre⟩
  have h2 : isLastOcc '}' (pre ++ ('{' :: mid ++ ['}']) ++ post)
      (pre.length + mid.length + 1) :=
    ⟨pre ++ '{' :: mid, post, by simp, by simp [List.length_append]; omega,
      hpost⟩
  have hsl := braceSlice_of_occs h1 h2 (by omega)
  rw [hsl]
  have harith : pre.length + mid.length + 1 + 1 - pre.length =
      mid.length + 2 := by omega
  rw [harith]
  have harr : pre ++ ('{' :: mid ++ ['}']) ++ post =
      pre ++ (('{' :: mid ++ ['}']) ++ post) := by
    rw [List.append_assoc]
  rw [harr, List.drop_left]
  have hlen : ('{' :: mid ++ ['}']).length = mid.length + 2 := by
    simp [List.length_append]
  rw [List.take_left' hlen]

/-- Counterexample to C3: the reply `42` contains no brace at all, yet
`classify` does not fail with the format error; the whole reply parses as
the JSON number 42 and field extraction then raises the attribute error. -/
theorem claim3_counterexample :
    ('{' ∉ "42".data ∧ '}' ∉ "42".data) ∧
    classifyReply "42".data = .error PyErr.attributeError ∧
    ¬ ∃ raw det, classifyReply "42".data =
      .error (PyErr.formatError raw det) := by
  refine ⟨by decide, by rfl, ?_⟩
  rintro ⟨raw, det, h⟩
  rw [show classifyReply "42".data = .error PyErr.attributeError from rfl] at h
  simp at h

/-- C3 as amended: a reply without braces fails with the raw-reply-bearing
format error provided its stripped text is not itself valid JSON (a no-brace
reply that parses, like `42`, fails later in field extraction instead); and
for prose-wrapped replies the parsed substring is exactly the brace slice,
so parsing succeeds whenever that slice is a JSON object, the prose before
holding no opening and the prose after no closing brace. -/
theorem claim3_amended :
    (∀ reply e, ('{' ∉ pyStrip reply ∨ '}' ∉ pyStrip reply) →
      parseJson (pyStrip reply) = .error e →
      classifyReply reply = .error (.formatError (pyStrip reply) e)) ∧
    (∀ reply pre mid post kvs,
      pyStrip reply = pre ++ ('{' :: mid ++ ['}']) ++ post →
      '{' ∉ pre → '}' ∉ post →
      jsonSliceOf reply = '{' :: mid ++ ['}'] ∧
      (parseJson ('{' :: mid ++ ['}']) = .ok (Json.obj kvs) →
        classifyReply reply = extractResult (Json.obj kvs))) := by
  constructor
  · intro reply e hno hp
    have hsl : braceSlice (pyStrip reply) = pyStrip reply :=
      braceSlice_of_no_brace hno
    simp only [classifyReply, hsl]
    rw [hp]
  · intro reply pre mid post kvs hdec hpre hpost
    have hsl : braceSlice (pyStrip reply) = '{' :: mid ++ ['}'] := by
      rw [hdec]
      exact braceSlice_wrap hpre hpost
    refine ⟨hsl, ?_⟩
    intro hp
    simp only [classifyReply, hsl]
    rw [hp]

/-- Witness for C3 as amended, at the replies `not json at all` (no braces,
parse fails, format error raised) and `x \x7b"a":1\x7d y` (prose-wrapped object,
slice recovered, extraction runs). -/
theorem claim3_amended_witness :
    (('{' ∉ pyStrip "not json at all".data ∨
        '}' ∉ pyStrip "not json at all".data) ∧
      parseJson (pyStrip "not json at all".data) =
        .error "Expecting value".data ∧
      classifyReply "not json at all".data =
        .error (.formatError (pyStrip "not json at all".data)
          "Expecting value".data)) ∧
    (pyStrip "x \x7b\"a\":1\x7d y".data =
        "x ".data ++ ('{' :: "\"a\":1".data ++ ['}']) ++ " y".data ∧
      jsonSliceOf "x \x7b\"a\":1\x7d y".data = '{' :: "\"a\":1".data ++ ['}'] ∧
      classifyReply "x \x7b\"a\":1\x7d y".data =
        extractResult (Json.obj [("a".data, Json.num "1".data)])) := by
  refine ⟨⟨Or.inl (by decide), by rfl, ?_⟩, ⟨by decide, ?_, ?_⟩⟩
  · exact claim3_amended.1 "not json at all".data "Expecting value".data
      (Or.inl (by decide)) (by rfl)
  · exact (claim3_amended.2 "x \x7b\"a\":1\x7d y".data "x ".data "\"a\":1".data
      " y".data [("a".data, Json.num "1".data)] (by decide) (by decide)
      (by decide)).1
  · exact (claim3_amended.2 "x \x7b\"a\":1\x7d y".data "x ".data "\"a\":1".data
      " y".data [("a".data, Json.num "1".data)] (by decide) (by decide)
      (by decide)).2 (by rfl)

/-- When the request carries no truthy file part, the pipeline never stages
a file, whatever else happens. -/
theorem processUpload_no_stage {env : IngestEnv} {form : UploadForm}
    (hft : fileTruthy form.pdf_file = false) :
    ∀ p b, Effect.stageFile p b ∉ (processUpload env form).2 := by
  intro p b hmem
  cases hk : (pyStrip form.api_key).isEmpty with
  | true => simp [processUpload, hk] at hmem
  | false =>
  cases hurl : (pyStrip form.pdf_url).isEmpty with
  | true => simp [processUpload, hk, hft, hurl] at hmem
  | false =>
  have hurl' : ¬ pyStrip form.pdf_url = [] := by
    intro hp
    rw [hp] at hurl
    simp at hurl
  have hbody : ∀ (pdf_bytes : Bytes),
      Effect.stageFile p b ∉ (ingestBytes env pdf_bytes
        ("URL: ".data ++ pyStrip form.pdf_url) none
        [Effect.httpGet (pyStrip form.pdf_url)]).2 := by
    intro pdf_bytes hm
    rcases ingestBytes_cases env pdf_bytes
        ("URL: ".data ++ pyStrip form.pdf_url) none
        [Effect.httpGet (pyStrip form.pdf_url)] with
      ⟨-, heff | ⟨sn, heff⟩⟩ | ⟨text, reply, res, -, -, -, -, -, heff⟩ <;>
      rw [heff] at hm <;> simp at hm
  cases hf : form.pdf_file with
  | none =>
    cases hfetch : env.fetch (pyStrip form.pdf_url) with
    | error er =>
      simp [processUpload, hk, hf, hurl', hfetch, fileTruthy] at hmem
    | ok pdf_bytes =>
      exact hbody pdf_bytes
        (by simpa [processUpload, hk, hf, hurl', hfetch, fileTruthy] using hmem)
  | some f =>
    have hfn : f.filename.isEmpty = true := by
      rw [hf] at hft
      simpa [fileTruthy] using hft
    cases hfetch : env.fetch (pyStrip form.pdf_url) with
    | error er =>
      simp [processUpload, hk, hf, hfn, hurl', hfetch, fileTruthy] at hmem
    | ok pdf_bytes =>
      exact hbody pdf_bytes
        (by simpa [processUpload, hk, hf, hfn, hurl', hfetch, fileTruthy]
          using hmem)

/-- Environment for the counterexample to C4: extraction yields an empty
text layer; nothing further is ever reached. -/
def env4 : IngestEnv :=
  { fetch := fun _ => .error "unused".data,
    extract := fun _ => .ok [],
    modelCall := fun _ => .error "unused".data,
    stagePath := fun fn => "uploads/0_".data ++ fn }

/-- Form for the counterexample to C4: a file upload with a valid key. -/
def form4 : UploadForm :=
  { api_key := "k".data,
    pdf_file := some { filename := "a.pdf".data, content := [1] },
    pdf_url := [] }

/-- Counterexample to C4: a file upload whose extraction yields no text
fails, yet the staged file remains in the upload folder (the code has no
cleanup on the failure paths), so the file stage is not left in its
pre-failure state. -/
theorem claim4_counterexample :
    (processUpload env4 form4).1 =
      .failed "Could not extract any text from the PDF.".data ∧
    Effect.stageFile "uploads/0_a.pdf".data [1] ∈
      (processUpload env4 form4).2 := by
  constructor
  · rfl
  · decide

/-- C4 as amended: on any failing ingestion no record is inserted (a record
insertion forces the redirect outcome, so persistence happens only after
every upstream step succeeds), and for URL-sourced inputs no file is staged
either; a staged file of a file upload, however, remains when a later step
fails. -/
theorem claim4_amended :
    (∀ env form msg, (processUpload env form).1 = .failed msg →
      ∀ r, Effect.insertRecord r ∉ (processUpload env form).2) ∧
    (∀ env form r, Effect.insertRecord r ∈ (processUpload env form).2 →
      (processUpload env form).1 = .redirect) ∧
    (∀ env form, fileTruthy form.pdf_file = false →
      ∀ p b, Effect.stageFile p b ∉ (processUpload env form).2) := by
  refine ⟨?_, ?_, ?_⟩
  · intro env form msg hfail r hmem
    have := (processUpload_insert hmem).1
    rw [this] at hfail
    exact Outcome.noConfusion hfail
  · intro env form r hmem
    exact (processUpload_insert hmem).1
  · intro env form hft
    exact processUpload_no_stage hft

/-- A record never inserted by the failing run of the C4 witness. -/
def sr0 : SavedRecord :=
  { title := [], source := [], main_category := [], industry := [],
    short_summary := [], file_path := none }

/-- Witness for C4 as amended, at the failing concrete run of `env4`/`form4`
(no record inserted) and at a URL form (nothing staged). -/
theorem claim4_amended_witness :
    ((processUpload env4 form4).1 =
      .failed "Could not extract any text from the PDF.".data ∧
      Effect.insertRecord sr0 ∉ (processUpload env4 form4).2) ∧
    (fileTruthy (none : Option FilePart) = false ∧
      Effect.stageFile "p".data [] ∉
        (processUpload env4
          { api_key := "k".data, pdf_file := none,
            pdf_url := "http://x".data }).2) :=
  ⟨⟨rfl, claim4_amended.1 env4 form4
      "Could not extract any text from the PDF.".data rfl sr0⟩,
    ⟨rfl, claim4_amended.2.2 env4
      { api_key := "k".data, pdf_file := none, pdf_url := "http://x".data }
      rfl "p".data []⟩⟩

/-- Environment for the counterexample to C5: every external call succeeds
and the model reply is a clean JSON object. -/
def env5 : IngestEnv :=
  { fetch := fun _ => .ok [9],
    extract := fun _ => .ok "text".data,
    modelCall := fun _ =>
      .ok "\x7b\"audience\": \"Retail\", \"industry\": \"Energy\"\x7d".data,
    stagePath := fun fn => "uploads/1_".data ++ fn }

/-- Form for the counterexample to C5: a valid key and BOTH a file and a
URL. -/
def form5 : UploadForm :=
  { api_key := "k".data,
    pdf_file := some { filename := "a.pdf".data, content := [1] },
    pdf_url := "http://x".data }

/-- Counterexample to C5: an input providing both a file and a URL is not
rejected — the pipeline proceeds (staging the file, calling the model,
persisting a record) and succeeds, the URL simply being ignored. -/
theorem claim5_counterexample :
    fileTruthy form5.pdf_file = true ∧ pyStrip form5.pdf_url ≠ [] ∧
    pyStrip form5.api_key ≠ [] ∧
    (processUpload env5 form5).1 = .redirect ∧
    (processUpload env5 form5).2 ≠ [] := by
  refine ⟨rfl, by decide, by decide, by rfl, by decide⟩

/-- C5 as amended: the guard requires a non-empty (stripped) API key and at
least one of file and URL; a missing key, or both inputs missing, fails with
the literal validation message and an empty effect list (no staging, no
fetch, no model call); and when a truthy file is present the URL is ignored:
no HTTP fetch ever happens. -/
theorem claim5_amended :
    (∀ env form, pyStrip form.api_key = [] →
      processUpload env form =
        (.failed "OpenAI API key is required.".data, [])) ∧
    (∀ env form, pyStrip form.api_key ≠ [] →
      fileTruthy form.pdf_file = false → pyStrip form.pdf_url = [] →
      processUpload env form =
        (.failed "Please upload a PDF file or provide a PDF URL.".data, [])) ∧
    (∀ env form, fileTruthy form.pdf_file = true →
      ∀ u, Effect.httpGet u ∉ (processUpload env form).2) := by
  refine ⟨?_, ?_, ?_⟩
  · intro env form h
    simp [processUpload, h]
  · intro env form hk hft hurl
    have hk' : (pyStrip form.api_key).isEmpty = false := by
      cases h' : pyStrip form.api_key with
      | nil => exact absurd h' hk
      | cons c cs => rfl
    simp [processUpload, hk', hft, hurl]
  · intro env form hft u hmem
    cases hf : form.pdf_file with
    | none => rw [hf] at hft; exact Bool.noConfusion hft
    | some f =>
      have hfn : f.filename.isEmpty = false := by
        rw [hf] at hft
        simpa [fileTruthy] using hft
      cases hk : (pyStrip form.api_key).isEmpty with
      | true => simp [processUpload, hk] at hmem
      | false =>
        have hmem' : Effect.httpGet u ∈ (ingestBytes env f.content
            ("File: ".data ++ f.filename) (some (env.stagePath f.filename))
            [Effect.stageFile (env.stagePath f.filename) f.content]).2 := by
          simpa [processUpload, hk, hf, hfn, fileTruthy] using hmem
        rcases ingestBytes_cases env f.content
            ("File: ".data ++ f.filename) (some (env.stagePath f.filename))
            [Effect.stageFile (env.stagePath f.filename) f.content] with
          ⟨-, heff | ⟨sn, heff⟩⟩ | ⟨text, reply, res, -, -, -, -, -, heff⟩ <;>
          rw [heff] at hmem' <;> simp at hmem'

/-- Forms for the witness of C5 as amended: a whitespace-only key, and a
valid key with a falsy file part and a whitespace-only URL. -/
def form5k : UploadForm :=
  { api_key := "  ".data, pdf_file := none, pdf_url := "http://x".data }

def form5b : UploadForm :=
  { api_key := "k".data,
    pdf_file := some { filename := [], content := [1] },
    pdf_url := " ".data }

/-- Witness for C5 as amended at concrete inputs: missing key and missing
inputs fail with the validation messages and no effects; a truthy file
means no HTTP fetch. -/
theorem claim5_amended_witness :
    processUpload env5 form5k =
      (.failed "OpenAI API key is required.".data, []) ∧
    processUpload env5 form5b =
      (.failed "Please upload a PDF file or provide a PDF URL.".data, []) ∧
    Effect.httpGet "http://x".data ∉ (processUpload env5 form5).2 :=
  ⟨claim5_amended.1 env5 form5k (by decide),
    claim5_amended.2.1 env5 form5b (by decide) (by decide) (by decide),
    claim5_amended.2.2 env5 form5 rfl "http://x".data⟩

theorem char_toNat_inj {a b : Char} (h : a.toNat = b.toNat) : a = b := by
  rw [← Char.ofNat_toNat a, ← Char.ofNat_toNat b, h]

theorem strLe_total : ∀ a b : PyStr, strLe a b = true ∨ strLe b a = true := by
  intro a
  induction a with
  | nil => intro b; exact Or.inl rfl
  | cons x xs ih =>
    intro b
    cases b with
    | nil => exact Or.inr rfl
    | cons y ys =>
      rcases Nat.lt_trichotomy x.toNat y.toNat with h | h | h
      · left; simp [strLe, h]
      · rcases ih ys with h' | h'
        · left; simp [strLe, h, h']
        · right; simp [strLe, h.symm, h']
      · right; simp [strLe, h]

theorem strLe_trans : ∀ a b c : PyStr, strLe a b = true → strLe b c = true →
    strLe a c = true := by
  intro a
  induction a with
  | nil => intro b c _ _; rfl
  | cons x xs ih =>
    intro b c hab hbc
    cases b with
    | nil => exact absurd hab (by simp [strLe])
    | cons y ys =>
      cases c with
      | nil => exact absurd hbc (by simp [strLe])
      | cons z zs =>
        simp only [strLe] at hab hbc ⊢
        rcases Nat.lt_trichotomy x.toNat y.toNat with h1 | h1 | h1 <;>
          rcases Nat.lt_trichotomy y.toNat z.toNat with h2 | h2 | h2 <;>
          simp_all <;> try omega
        · exact ih ys zs hab hbc

theorem strLe_antisymm : ∀ a b : PyStr, strLe a b = true →
    strLe b a = true → a = b := by
  intro a
  induction a with
  | nil =>
    intro b hab hba
    cases b with
    | nil => rfl
    | cons y ys => exact absurd hba (by simp [strLe])
  | cons x xs ih =>
    intro b hab hba
    cases b with
    | nil => exact absurd hab (by simp [strLe])
    | cons y ys =>
      simp only [strLe] at hab hba
      rcases Nat.lt_trichotomy x.toNat y.toNat with h1 | h1 | h1
      · simp [h1, Nat.lt_asymm h1] at hba
      · have hx : x = y := char_toNat_inj h1
        subst hx
        simp [Nat.lt_irrefl] at hab hba
        rw [ih ys hab hba]
      · simp [h1, Nat.lt_asymm h1] at hab

theorem perm_orderedInsert (le : Record → Record → Bool) (x : Record) :
    ∀ l : List Record, (orderedInsert le x l).Perm (x :: l) := by
  intro l
  induction l with
  | nil => rfl
  | cons y ys ih =>
    by_cases h : le x y
    · simp [orderedInsert, h]
    · simp only [orderedInsert, if_neg h]
      exact (ih.cons y).trans (List.Perm.swap x y ys)

theorem perm_insSort (le : Record → Record → Bool) :
    ∀ l : List Record, (insSort le l).Perm l := by
  intro l
  induction l with
  | nil => rfl
  | cons x xs ih =>
    exact (perm_orderedInsert le x (insSort le xs)).trans (ih.cons x)

theorem mem_orderedInsert {le : Record → Record → Bool} {x z : Record}
    {l : List Record} :
    z ∈ orderedInsert le x l ↔ z = x ∨ z ∈ l := by
  rw [(perm_orderedInsert le x l).mem_iff, List.mem_cons]

theorem pairwise_orderedInsert (le : Record → Record → Bool)
    (htot : ∀ a b, le a b = true ∨ le b a = true)
    (htrans : ∀ a b c, le a b = true → le b c = true → le a c = true)
    (x : Record) :
    ∀ l : List Record, List.Pairwise (fun a b => le a b = true) l →
      List.Pairwise (fun a b => le a b = true) (orderedInsert le x l) := by
  intro l
  induction l with
  | nil => intro _; simp [orderedInsert]
  | cons y ys ih =>
    intro h
    rcases List.pairwise_cons.mp h with ⟨hy, htail⟩
    by_cases hxy : le x y = true
    · simp only [orderedInsert, if_pos hxy]
      refine List.pairwise_cons.mpr ⟨?_, h⟩
      intro z hz
      rcases List.mem_cons.mp hz with hz | hz
      · rw [hz]; exact hxy
      · exact htrans x y z hxy (hy z hz)
    · simp only [orderedInsert, if_neg hxy]
      have hyx : le y x = true := by
        rcases htot x y with h' | h'
        · exact absurd h' hxy
        · exact h'
      refine List.pairwise_cons.mpr ⟨?_, ih htail⟩
      intro z hz
      rcases mem_orderedInsert.mp hz with hz | hz
      · rw [hz]; exact hyx
      · exact hy z hz

theorem pairwise_insSort (le : Record → Record → Bool)
    (htot : ∀ a b, le a b = true ∨ le b a = true)
    (htrans : ∀ a b c, le a b = true → le b c = true → le a c = true) :
    ∀ l : List Record,
      List.Pairwise (fun a b => le a b = true) (insSort le l) := by
  intro l
  induction l with
  | nil => simp [insSort]
  | cons x xs ih => exact pairwise_orderedInsert le htot htrans x _ ih

/-- Two sorted permutations of each other agree as soon as the sort keys are
pairwise distinct, even though the order is only a preorder on records. -/
theorem eq_of_perm_sorted_distinct (le : Record → Record → Bool)
    (hkey : ∀ a b, le a b = true → le b a = true →
      a.created_at = b.created_at) :
    ∀ l₁ l₂ : List Record, l₁.Perm l₂ →
      List.Pairwise (fun a b => le a b = true) l₁ →
      List.Pairwise (fun a b => le a b = true) l₂ →
      List.Pairwise (fun a b => a.created_at ≠ b.created_at) l₁ →
      l₁ = l₂ := by
  intro l₁
  induction l₁ with
  | nil =>
    intro l₂ hp _ _ _
    exact (hp.symm.eq_nil).symm
  | cons x xs ih =>
    intro l₂ hp h1 h2 hd
    cases l₂ with
    | nil => exact absurd hp.eq_nil (by simp)
    | cons y ys =>
      by_cases hxy : x = y
      · subst hxy
        rw [ih ys hp.cons_inv h1.tail h2.tail hd.tail]
      · exfalso
        have hxmem : x ∈ y :: ys := hp.mem_iff.mp (List.mem_cons_self x xs)
        have hxys : x ∈ ys := by
          rcases List.mem_cons.mp hxmem with h' | h'
          · exact absurd h' hxy
          · exact h'
        have hymem : y ∈ x :: xs := hp.mem_iff.mpr (List.mem_cons_self y ys)
        have hyxs : y ∈ xs := by
          rcases List.mem_cons.mp hymem with h' | h'
          · exact absurd h'.symm hxy
          · exact h'
        have hlexy : le x y = true := (List.pairwise_cons.mp h1).1 y hyxs
        have hleyx : le y x = true := (List.pairwise_cons.mp h2).1 x hxys
        have hkeq : x.created_at = y.created_at := hkey x y hlexy hleyx
        exact (List.pairwise_cons.mp hd).1 y hyxs hkeq

/-- Records sharing the same `created_at`, used by the counterexample to
C6's reversal clause. -/
def rec6a : Record :=
  { id := 1, title := "A".data, source := "s".data,
    main_category := "Retail".data, industry := "Energy".data,
    short_summary := [], file_path := none,
    created_at := "2024-01-01T00:00:00".data }

def rec6b : Record :=
  { id := 2, title := "B".data, source := "s".data,
    main_category := "Retail".data, industry := "Energy".data,
    short_summary := [], file_path := none,
    created_at := "2024-01-01T00:00:00".data }

/-- Counterexample to C6: Python `sorted` is stable also with
`reverse=True`, so two distinct records with equal `created_at` keep their
original order under both directions, and the "newest" ordering is then not
the reverse of the "oldest" ordering. -/
theorem claim6_counterexample :
    rec6a.created_at = rec6b.created_at ∧ rec6a ≠ rec6b ∧
    listingSort "newest".data [rec6a, rec6b] ≠
      (listingSort "oldest".data [rec6a, rec6b]).reverse := by
  refine ⟨rfl, by decide, by decide⟩

/-- C6 as amended: "newest" sorts descending and "oldest" ascending by
lexicographic comparison of the `created_at` string (each a permutation of
the input), the default direction is "newest", and when the `created_at`
values are pairwise distinct the "newest" ordering is exactly the reverse of
the "oldest" ordering (with ties, stability makes both orders keep the
original relative order instead). -/
theorem claim6_amended :
    (∀ ws, (listingSort "newest".data ws).Perm ws ∧
      List.Pairwise (fun a b => strLe b.created_at a.created_at = true)
        (listingSort "newest".data ws)) ∧
    (∀ ws, (listingSort "oldest".data ws).Perm ws ∧
      List.Pairwise (fun a b => strLe a.created_at b.created_at = true)
        (listingSort "oldest".data ws)) ∧
    effectiveSortOrder none = "newest".data ∧
    (∀ ws, List.Pairwise (fun a b : Record =>
        a.created_at ≠ b.created_at) ws →
      listingSort "newest".data ws =
        (listingSort "oldest".data ws).reverse) := by
  have hbn : (("newest".data : PyStr) == "newest".data) = true := by decide
  have hbo : (("oldest".data : PyStr) == "newest".data) = false := by decide
  have hnew : ∀ ws, listingSort "newest".data ws =
      insSort (sortCmp true) ws := by
    intro ws
    simp [listingSort, hbn]
  have hold : ∀ ws, listingSort "oldest".data ws =
      insSort (sortCmp false) ws := by
    intro ws
    simp [listingSort, hbo]
  have htotD : ∀ a b : Record, sortCmp true a b = true ∨
      sortCmp true b a = true := fun a b =>
    (strLe_total b.created_at a.created_at).elim Or.inl Or.inr
  have htransD : ∀ a b c : Record, sortCmp true a b = true →
      sortCmp true b c = true → sortCmp true a c = true := fun a b c hab hbc =>
    strLe_trans c.created_at b.created_at a.created_at hbc hab
  have htotA : ∀ a b : Record, sortCmp false a b = true ∨
      sortCmp false b a = true := fun a b =>
    (strLe_total a.created_at b.created_at).elim Or.inl Or.inr
  have htransA : ∀ a b c : Record, sortCmp false a b = true →
      sortCmp false b c = true → sortCmp false a c = true :=
    fun a b c hab hbc =>
      strLe_trans a.created_at b.created_at c.created_at hab hbc
  have hkeyD : ∀ a b : Record, sortCmp true a b = true →
      sortCmp true b a = true → a.created_at = b.created_at :=
    fun a b hab hba => strLe_antisymm a.created_at b.created_at hba hab
  refine ⟨?_, ?_, by decide, ?_⟩
  · intro ws
    rw [hnew ws]
    exact ⟨perm_insSort _ ws, pairwise_insSort _ htotD htransD ws⟩
  · intro ws
    rw [hold ws]
    exact ⟨perm_insSort _ ws, pairwise_insSort _ htotA htransA ws⟩
  · intro ws hd
    rw [hnew ws, hold ws]
    have hpermD := perm_insSort (sortCmp true) ws
    have hpermA := perm_insSort (sortCmp false) ws
    have hp : (insSort (sortCmp true) ws).Perm
        (insSort (sortCmp false) ws).reverse :=
      hpermD.trans (hpermA.symm.trans
        (List.reverse_perm (insSort (sortCmp false) ws)).symm)
    have hD := pairwise_insSort (sortCmp true) htotD htransD ws
    have hA := pairwise_insSort (sortCmp false) htotA htransA ws
    have hArev : List.Pairwise (fun a b => sortCmp true a b = true)
        (insSort (sortCmp false) ws).reverse := by
      rw [List.pairwise_reverse]
      exact hA.imp (fun h => h)
    have hdD : List.Pairwise (fun a b : Record =>
        a.created_at ≠ b.created_at) (insSort (sortCmp true) ws) :=
      (List.Perm.pairwise_iff (fun h => h.symm) hpermD).mpr hd
    exact eq_of_perm_sorted_distinct (sortCmp true) hkeyD _ _ hp hD hArev hdD

/-- Witness for C6 as amended at two records with distinct timestamps. -/
theorem claim6_amended_witness :
    List.Pairwise (fun a b : Record => a.created_at ≠ b.created_at)
      [rec1, rec2] ∧
    listingSort "newest".data [rec1, rec2] =
      (listingSort "oldest".data [rec1, rec2]).reverse :=
  ⟨by decide, claim6_amended.2.2.2 [rec1, rec2] (by decide)⟩
